import Mathlib

/-!
# Verification of the link-shortener service (`src/app/app.py`)

A shallow embedding of the Flask URL-shortener application.  The mutable
PostgreSQL table `urls` is modelled as a list of rows (`Store`); each HTTP
handler becomes a pure function from its inputs and the current store to a
result paired with the next store.  Randomness (`random.choices`) is modelled
as an explicit stream of draws from the 62-character alphabet, and the
unbounded collision-retry loop is modelled with explicit fuel (the real loop
simply keeps running, inserting nothing, which corresponds to the fuel-out
case leaving the store unchanged).
-/

namespace LinkShortener

/-- A JSON value, as produced by `request.get_json()`.  Only the distinction
between strings and everything else matters to the handlers. -/
inductive JsonVal where
  | jstr (s : String)
  | jnum (n : Int)
  | jbool (b : Bool)
  | jnull
  | jarr
  | jobj
deriving Repr, DecidableEq

/-- A row of the `urls` table: `short_code VARCHAR(10) UNIQUE NOT NULL`,
`original_url TEXT NOT NULL`, `created_at TIMESTAMP DEFAULT NOW()`.
The auto-increment `id` column is never read by any handler, and timestamps
are modelled as naturals. -/
structure UrlMapping where
  short_code : String
  original_url : String
  created_at : Nat
deriving Repr, DecidableEq

/-- The state of the `urls` table. -/
abbrev Store := List UrlMapping

/-- Translation of `string.ascii_letters + string.digits`: the 62-character pool that
`generate_short_code` draws from. -/
def characters : List Char :=
  "abcdefghijklmnopqrstuvwxyzABCDEFGHIJKLMNOPQRSTUVWXYZ0123456789".toList

theorem characters_length : characters.length = 62 := by decide

/-- Translation of the Python `str.strip()` method: remove leading and trailing whitespace. -/
def pyStrip (s : String) : String :=
  ⟨((s.data.dropWhile Char.isWhitespace).reverse.dropWhile Char.isWhitespace).reverse⟩

/-- Translation of `generate_short_code(length=6)`.  `random.choices(characters, k=length)`
draws `length` elements of `characters` independently with replacement; the
draws are modelled by the stream `pick`, consumed starting at `offset`. -/
def generate_short_code (pick : Nat → Fin 62) (offset : Nat) (length : Nat := 6) :
    String :=
  ⟨(List.range length).map fun i =>
    characters.get (Fin.cast characters_length.symm (pick (offset + i)))⟩

/-- Translation of `SELECT ... FROM urls WHERE short_code = %s` with `fetchone()`: an exact,
case-sensitive match on the `short_code` column. -/
def findCode (store : Store) (code : String) : Option UrlMapping :=
  store.find? fun m => m.short_code == code

/-- The collision-retry loop of `shorten_url`: generate a code, `SELECT` it,
and regenerate while the code is already present.  Attempt `n` consumes draws
`6*n .. 6*n+5` of the stream.  `fuel` bounds the number of attempts modelled;
the real loop has no bound and inserts nothing until it exits. -/
def genLoop (store : Store) (pick : Nat → Fin 62) : Nat → Nat → Option String
  | 0, _ => none
  | fuel + 1, attempt =>
    let code := generate_short_code pick (6 * attempt)
    if (findCode store code).isSome then genLoop store pick fuel (attempt + 1)
    else some code

/-- The outcome of `POST /api/shorten`. -/
inductive ShortenResult where
  /-- A 400 response carrying an error message; no row was inserted. -/
  | badRequest (error : String)
  /-- A 201 response carrying the code, the short link, and the stored URL. -/
  | created (short_code short_url original_url : String)
  /-- An uncaught Python exception (`data["url"].strip()` on a non-string
  raises `AttributeError`). -/
  | pyError
  /-- The collision-retry loop is still running after `fuel` attempts. -/
  | pending
deriving Repr, DecidableEq

def ShortenResult.isBadRequest : ShortenResult → Bool
  | .badRequest _ => true
  | _ => false

/-- Handler `shorten_url` (`POST /api/shorten`).  `host` is `request.host`, `data` is
`request.get_json()` (`none` when no JSON body was parsed, otherwise the
key/value pairs of the JSON object), `now` is the timestamp `NOW()` assigns to
the inserted row.  In Python, `not data` is true exactly for `None` and the
empty dict, both of which end in the same 400 branch as a missing key. -/
def shorten_url (host : String) (pick : Nat → Fin 62) (fuel now : Nat)
    (data : Option (List (String × JsonVal))) (store : Store) :
    ShortenResult × Store :=
  match data with
  | none => (.badRequest "Missing url in request body", store)
  | some body =>
    match body.lookup "url" with
    | none => (.badRequest "Missing url in request body", store)
    | some (.jstr url) =>
      let original_url := pyStrip url
      if original_url = "" then
        (.badRequest "URL cannot be empty", store)
      else
        match genLoop store pick fuel 0 with
        | none => (.pending, store)
        | some short_code =>
          let short_url := "http://" ++ host ++ "/" ++ short_code
          (.created short_code short_url original_url,
            store ++ [⟨short_code, original_url, now⟩])
    | some _ => (.pyError, store)

/-- The outcome of `GET /<short_code>`. -/
inductive ResolveResult where
  /-- Response 404: no mapping for this code. -/
  | notFound
  /-- Response 302: a redirect to the stored original URL. -/
  | redirect (url : String)
deriving Repr, DecidableEq

/-- Handler `redirect_to_url` (`GET /<short_code>`): one `SELECT`, then either a 404
or a 302 to the stored `original_url`.  The handler runs no write statement,
so the store it returns is the one it was given. -/
def redirect_to_url (short_code : String) (store : Store) :
    ResolveResult × Store :=
  match findCode store short_code with
  | none => (.notFound, store)
  | some m => (.redirect m.original_url, store)

/-- One element of the JSON array returned by `GET /api/urls`. -/
structure ListEntry where
  short_code : String
  original_url : String
  short_url : String
  created_at : Nat
deriving Repr, DecidableEq

/-- The sort order `ORDER BY created_at DESC`: newest first. -/
def byCreatedDesc (a b : UrlMapping) : Prop := b.created_at ≤ a.created_at

instance : DecidableRel byCreatedDesc := fun _ _ => Nat.decLe _ _

/-- Handler `list_urls` (`GET /api/urls`):
`SELECT short_code, original_url, created_at FROM urls ORDER BY created_at
DESC`, then each row is rendered with a `short_url` built from
`request.host`.  The handler runs no write statement. -/
def list_urls (host : String) (store : Store) : List ListEntry × Store :=
  let rows := store.insertionSort byCreatedDesc
  (rows.map fun m =>
    ⟨m.short_code, m.original_url,
      "http://" ++ host ++ "/" ++ m.short_code, m.created_at⟩, store)

/-- The inputs of one `POST /api/shorten` request. -/
structure ShortenRequest where
  host : String
  pick : Nat → Fin 62
  fuel : Nat
  now : Nat
  data : Option (List (String × JsonVal))

/-- Process a sequence of `POST /api/shorten` requests, threading the store. -/
def runShortens (reqs : List ShortenRequest) (store : Store) : Store :=
  reqs.foldl (fun s r => (shorten_url r.host r.pick r.fuel r.now r.data s).2) store

/-! ## Helper lemmas -/

/-- Characterisation of a failed lookup: no row matches the code exactly. -/
theorem findCode_eq_none_iff (store : Store) (c : String) :
    findCode store c = none ↔ ∀ m ∈ store, m.short_code ≠ c := by
  simp [findCode, List.find?_eq_none]

/-- Lookup distributes over concatenation of stores. -/
theorem findCode_append (s₁ s₂ : Store) (c : String) :
    findCode (s₁ ++ s₂) c = (findCode s₁ c).or (findCode s₂ c) :=
  List.find?_append

/-- A code returned by the retry loop was absent from the store, and is an
output of the code generator. -/
theorem genLoop_eq_some (store : Store) (pick : Nat → Fin 62) :
    ∀ fuel attempt c, genLoop store pick fuel attempt = some c →
      findCode store c = none ∧ ∃ n, c = generate_short_code pick (6 * n) := by
  intro fuel
  induction fuel with
  | zero => intro _ _ h; simp [genLoop] at h
  | succ fuel ih =>
    intro attempt c h
    simp only [genLoop] at h
    by_cases hf : (findCode store (generate_short_code pick (6 * attempt))).isSome
    · rw [if_pos hf] at h
      exact ih _ _ h
    · rw [if_neg hf] at h
      injection h with h
      subst h
      refine ⟨?_, attempt, rfl⟩
      cases hfc : findCode store (generate_short_code pick (6 * attempt)) with
      | none => rfl
      | some m => rw [hfc] at hf; simp at hf

/-- Inversion of a successful `shorten_url` call: the input was a JSON object
whose `url` value is a string with non-empty strip, the stored URL is that
stripped string, the code was absent before the insert, the short link is
built from the request host, and the new store is the old store plus the one
inserted row. -/
theorem shorten_url_created_inv (host : String) (pick : Nat → Fin 62)
    (fuel now : Nat) (data : Option (List (String × JsonVal))) (store : Store)
    (c su ou : String) (store' : Store)
    (h : shorten_url host pick fuel now data store = (.created c su ou, store')) :
    findCode store c = none ∧
    su = "http://" ++ host ++ "/" ++ c ∧
    store' = store ++ [⟨c, ou, now⟩] ∧
    (∃ n, c = generate_short_code pick (6 * n)) ∧
    ∃ body url, data = some body ∧ body.lookup "url" = some (.jstr url) ∧
      ou = pyStrip url ∧ pyStrip url ≠ "" := by
  cases data with
  | none => simp [shorten_url] at h
  | some body =>
    simp only [shorten_url] at h
    cases hb : body.lookup "url" with
    | none => rw [hb] at h; simp at h
    | some v =>
      rw [hb] at h
      cases v with
      | jstr url =>
        simp only at h
        by_cases he : pyStrip url = ""
        · rw [if_pos he] at h; simp at h
        · rw [if_neg he] at h
          cases hg : genLoop store pick fuel 0 with
          | none => rw [hg] at h; simp at h
          | some code =>
            rw [hg] at h
            simp only [Prod.mk.injEq, ShortenResult.created.injEq] at h
            obtain ⟨⟨hc, hsu, hou⟩, hst⟩ := h
            subst hc
            obtain ⟨habs, hgen⟩ := genLoop_eq_some store pick fuel 0 code hg
            exact ⟨habs, hsu.symm, hst.symm.trans (by rw [hou]), hgen,
              body, url, rfl, hb, hou.symm, he⟩
      | jnum n => simp at h
      | jbool b => simp at h
      | jnull => simp at h
      | jarr => simp at h
      | jobj => simp at h

/-- Every `shorten_url` call either leaves the store untouched or appends a
single row whose code was absent beforehand. -/
theorem shorten_url_store_cases (host : String) (pick : Nat → Fin 62)
    (fuel now : Nat) (data : Option (List (String × JsonVal))) (store : Store) :
    (shorten_url host pick fuel now data store).2 = store ∨
    ∃ c ou, findCode store c = none ∧
      (shorten_url host pick fuel now data store).2 = store ++ [⟨c, ou, now⟩] := by
  cases h : shorten_url host pick fuel now data store with
  | mk res store' =>
    cases res with
    | created c su ou =>
      obtain ⟨habs, -, hst, -, -⟩ := shorten_url_created_inv _ _ _ _ _ _ _ _ _ _ h
      exact Or.inr ⟨c, ou, habs, hst⟩
    | badRequest e =>
      left
      cases data with
      | none => simpa [shorten_url] using (congrArg Prod.snd h).symm
      | some body =>
        simp only [shorten_url] at h
        cases hb : body.lookup "url" with
        | none => rw [hb] at h; exact (congrArg Prod.snd h).symm
        | some v =>
          rw [hb] at h
          cases v with
          | jstr url =>
            simp only at h
            by_cases he : pyStrip url = ""
            · rw [if_pos he] at h; exact (congrArg Prod.snd h).symm
            · rw [if_neg he] at h
              cases hg : genLoop store pick fuel 0 with
              | none => rw [hg] at h; simp at h
              | some code => rw [hg] at h; simp at h
          | jnum n => simp at h
          | jbool b => simp at h
          | jnull => simp at h
          | jarr => simp at h
          | jobj => simp at h
    | pyError =>
      left
      cases data with
      | none => simp [shorten_url] at h
      | some body =>
        simp only [shorten_url] at h
        cases hb : body.lookup "url" with
        | none => rw [hb] at h; simp at h
        | some v =>
          rw [hb] at h
          cases v with
          | jstr url =>
            simp only at h
            by_cases he : pyStrip url = ""
            · rw [if_pos he] at h; simp at h
            · rw [if_neg he] at h
              cases hg : genLoop store pick fuel 0 with
              | none => rw [hg] at h; simp at h
              | some code => rw [hg] at h; simp at h
          | jnum n => exact (congrArg Prod.snd h).symm
          | jbool b => exact (congrArg Prod.snd h).symm
          | jnull => exact (congrArg Prod.snd h).symm
          | jarr => exact (congrArg Prod.snd h).symm
          | jobj => exact (congrArg Prod.snd h).symm
    | pending =>
      left
      cases data with
      | none => simp [shorten_url] at h
      | some body =>
        simp only [shorten_url] at h
        cases hb : body.lookup "url" with
        | none => rw [hb] at h; simp at h
        | some v =>
          rw [hb] at h
          cases v with
          | jstr url =>
            simp only at h
            by_cases he : pyStrip url = ""
            · rw [if_pos he] at h; simp at h
            · rw [if_neg he] at h
              cases hg : genLoop store pick fuel 0 with
              | none => rw [hg] at h; exact (congrArg Prod.snd h).symm
              | some code => rw [hg] at h; simp at h
          | jnum n => simp at h
          | jbool b => simp at h
          | jnull => simp at h
          | jarr => simp at h
          | jobj => simp at h

/-- A `shorten_url` call preserves the code-uniqueness invariant. -/
theorem shorten_url_preserves_nodup (host : String) (pick : Nat → Fin 62)
    (fuel now : Nat) (data : Option (List (String × JsonVal))) (store : Store)
    (h : (store.map UrlMapping.short_code).Nodup) :
    (((shorten_url host pick fuel now data store).2).map
      UrlMapping.short_code).Nodup := by
  rcases shorten_url_store_cases host pick fuel now data store with
    hc | ⟨c, ou, habs, hc⟩
  · rw [hc]; exact h
  · rw [hc, List.map_append, List.nodup_append]
    refine ⟨h, List.nodup_singleton c, ?_⟩
    intro x hx hx1
    simp only [List.map_singleton, List.mem_singleton] at hx1
    subst hx1
    obtain ⟨m, hm, hmx⟩ := List.mem_map.mp hx
    exact (findCode_eq_none_iff _ _).mp habs m hm hmx

/-- Running any sequence of shorten requests preserves the code-uniqueness
invariant. -/
theorem runShortens_preserves_nodup :
    ∀ (reqs : List ShortenRequest) (store : Store),
      (store.map UrlMapping.short_code).Nodup →
      ((runShortens reqs store).map UrlMapping.short_code).Nodup := by
  intro reqs
  induction reqs with
  | nil => intro store h; simpa [runShortens] using h
  | cons r rs ih =>
    intro store h
    rw [runShortens, List.foldl_cons]
    exact ih _ (shorten_url_preserves_nodup r.host r.pick r.fuel r.now r.data store h)

/-- With unique codes, an exact lookup of the code of a stored row returns
that very row. -/
theorem findCode_eq_some_of_mem (store : Store) (m : UrlMapping) (c : String)
    (hnd : (store.map UrlMapping.short_code).Nodup)
    (hm : m ∈ store) (hc : m.short_code = c) :
    findCode store c = some m := by
  induction store with
  | nil => cases hm
  | cons a l ih =>
    rw [List.map_cons, List.nodup_cons] at hnd
    rcases List.mem_cons.mp hm with rfl | hml
    · simp [findCode, hc]
    · have hac : a.short_code ≠ c := by
        intro hac
        apply hnd.1
        rw [hac, ← hc]
        exact List.mem_map_of_mem UrlMapping.short_code hml
      have : (a.short_code == c) = false := beq_eq_false_iff_ne.mpr hac
      simp only [findCode, List.find?_cons, this]
      exact ih hnd.2 hml

instance : IsTotal UrlMapping byCreatedDesc :=
  ⟨fun a b => Nat.le_total b.created_at a.created_at⟩

instance : IsTrans UrlMapping byCreatedDesc :=
  ⟨fun _ _ _ hab hbc => Nat.le_trans hbc hab⟩

/-- A concrete draw stream for witnesses: always draw index 0 (letter `a`). -/
def pickZero : Nat → Fin 62 := fun _ => ⟨0, by decide⟩

/-! ## Claims -/

/-- C1: for every valid input URL (present and non-empty after trimming
surrounding whitespace), a successful `shorten_url` call followed immediately
by `redirect_to_url` on the code it returned yields exactly the trimmed input
URL. -/
theorem claim_C1 (host : String) (pick : Nat → Fin 62) (fuel now : Nat)
    (data : Option (List (String × JsonVal))) (store : Store)
    (body : List (String × JsonVal)) (url : String)
    (c su ou : String) (store' : Store)
    (hdata : data = some body)
    (hurl : body.lookup "url" = some (.jstr url))
    (h : shorten_url host pick fuel now data store = (.created c su ou, store')) :
    redirect_to_url c store' = (.redirect (pyStrip url), store') := by
  obtain ⟨habs, -, hst, -, body', url', hdata', hurl', hou, -⟩ :=
    shorten_url_created_inv _ _ _ _ _ _ _ _ _ _ h
  rw [hdata] at hdata'
  injection hdata' with hbody
  subst hbody
  rw [hurl] at hurl'
  injection hurl' with hv
  injection hv with hu
  subst hu
  subst hou
  subst hst
  have hfind : findCode (store ++ [⟨c, pyStrip url, now⟩]) c =
      some ⟨c, pyStrip url, now⟩ := by
    rw [findCode_append, habs]
    simp [findCode]
  simp [redirect_to_url, hfind]

/-- C1 witness: a concrete successful shorten followed by resolve. -/
theorem claim_C1_witness :
    redirect_to_url "aaaaaa" [⟨"aaaaaa", "https://example.com/a/b", 5⟩] =
      (.redirect (pyStrip " https://example.com/a/b "),
        [⟨"aaaaaa", "https://example.com/a/b", 5⟩]) :=
  claim_C1 "localhost" pickZero 1 5
    (some [("url", .jstr " https://example.com/a/b ")]) []
    [("url", .jstr " https://example.com/a/b ")] " https://example.com/a/b "
    "aaaaaa" "http://localhost/aaaaaa" "https://example.com/a/b"
    [⟨"aaaaaa", "https://example.com/a/b", 5⟩] rfl rfl (by decide)

/-- C2: after any sequence of shorten calls starting from an empty store, no
two stored mappings share the same code, and any shorten sequence preserves
this uniqueness invariant of the store state. -/
theorem claim_C2 (reqs : List ShortenRequest) (store : Store) :
    ((runShortens reqs []).map UrlMapping.short_code).Nodup ∧
    ((store.map UrlMapping.short_code).Nodup →
      ((runShortens reqs store).map UrlMapping.short_code).Nodup) :=
  ⟨runShortens_preserves_nodup reqs [] (by simp),
   runShortens_preserves_nodup reqs store⟩

/-- C2 witness: a concrete shorten request on a concrete non-empty store. -/
theorem claim_C2_witness :
    ((runShortens
        [⟨"localhost", pickZero, 1, 7, some [("url", .jstr "https://example.com")]⟩]
        [⟨"zzz", "u0", 0⟩]).map UrlMapping.short_code).Nodup :=
  (claim_C2
    [⟨"localhost", pickZero, 1, 7, some [("url", .jstr "https://example.com")]⟩]
    [⟨"zzz", "u0", 0⟩]).2 (by decide)

/-- C3: the alphabet has 62 characters; every generated code has length 6 and
draws every character from that alphabet (so each character is an ASCII
letter or digit), and hence so does every code returned by a successful
shorten call. -/
theorem claim_C3 (pick : Nat → Fin 62) (offset : Nat) (host : String)
    (fuel now : Nat) (data : Option (List (String × JsonVal))) (store : Store)
    (c su ou : String) (store' : Store) :
    characters.length = 62 ∧
    (generate_short_code pick offset).length = 6 ∧
    (∀ ch ∈ (generate_short_code pick offset).toList,
      ch ∈ characters ∧ ch.isAlphanum) ∧
    (shorten_url host pick fuel now data store = (.created c su ou, store') →
      c.length = 6 ∧ ∀ ch ∈ c.toList, ch ∈ characters ∧ ch.isAlphanum) := by
  have hlen : ∀ off, (generate_short_code pick off).length = 6 := by
    intro off
    simp [generate_short_code, String.length]
  have hmem : ∀ off ch, ch ∈ (generate_short_code pick off).toList →
      ch ∈ characters ∧ ch.isAlphanum := by
    intro off ch hch
    have hall : ∀ x ∈ characters, x.isAlphanum := by decide
    simp only [generate_short_code, String.toList, List.mem_map] at hch
    obtain ⟨i, -, rfl⟩ := hch
    exact ⟨List.get_mem _ _ _, hall _ (List.get_mem _ _ _)⟩
  refine ⟨characters_length, hlen offset, hmem offset, ?_⟩
  intro h
  obtain ⟨-, -, -, ⟨n, hc⟩, -⟩ := shorten_url_created_inv _ _ _ _ _ _ _ _ _ _ h
  subst hc
  exact ⟨hlen _, hmem _⟩

/-- C3 witness: a concrete generated code and a concrete shorten call. -/
theorem claim_C3_witness :
    "aaaaaa".length = 6 ∧ 'a' ∈ characters ∧ 'a'.isAlphanum := by
  have h := (claim_C3 pickZero 0 "localhost" 1 5 (some [("url", .jstr "x")]) []
    "aaaaaa" "http://localhost/aaaaaa" "x" [⟨"aaaaaa", "x", 5⟩]).2.2.2 (by decide)
  exact ⟨h.1, h.2 'a' (by decide)⟩

/-- C4: a shorten call whose input URL is missing (no JSON body or no `url`
key) or whose value strips to the empty string returns a 400 validation
failure and leaves the store unchanged. -/
theorem claim_C4 (host : String) (pick : Nat → Fin 62) (fuel now : Nat)
    (data : Option (List (String × JsonVal))) (store : Store)
    (h : data = none ∨
      (∃ body, data = some body ∧ body.lookup "url" = none) ∨
      (∃ body url, data = some body ∧ body.lookup "url" = some (.jstr url) ∧
        pyStrip url = "")) :
    (shorten_url host pick fuel now data store).1.isBadRequest = true ∧
    (shorten_url host pick fuel now data store).2 = store := by
  rcases h with rfl | ⟨body, rfl, hb⟩ | ⟨body, url, rfl, hb, he⟩
  · simp [shorten_url, ShortenResult.isBadRequest]
  · simp [shorten_url, hb, ShortenResult.isBadRequest]
  · simp [shorten_url, hb, he, ShortenResult.isBadRequest]

/-- C4 witness: a missing JSON body against a concrete non-empty store. -/
theorem claim_C4_witness :
    (shorten_url "localhost" pickZero 1 0 none [⟨"k", "u", 0⟩]).1.isBadRequest
      = true ∧
    (shorten_url "localhost" pickZero 1 0 none [⟨"k", "u", 0⟩]).2 =
      [⟨"k", "u", 0⟩] :=
  claim_C4 "localhost" pickZero 1 0 none [⟨"k", "u", 0⟩] (Or.inl rfl)

/-- C5: resolution is an exact, case-sensitive lookup: if no stored mapping
carries exactly the requested code the result is a 404, and if one does (the
codes being unique) the result is a 302 to that mapping's stored URL,
unchanged; the store is untouched either way. -/
theorem claim_C5 (store : Store) (c : String) :
    ((∀ m ∈ store, m.short_code ≠ c) →
      redirect_to_url c store = (.notFound, store)) ∧
    ∀ m ∈ store, m.short_code = c →
      (store.map UrlMapping.short_code).Nodup →
      redirect_to_url c store = (.redirect m.original_url, store) := by
  constructor
  · intro h
    have hn : findCode store c = none := (findCode_eq_none_iff store c).mpr h
    simp [redirect_to_url, hn]
  · intro m hm hc hnd
    have hs := findCode_eq_some_of_mem store m c hnd hm hc
    simp [redirect_to_url, hs]

/-- C5 witness: a present code resolves to its stored URL. -/
theorem claim_C5_witness :
    redirect_to_url "abc" [⟨"abc", "https://e.com", 0⟩] =
      (.redirect "https://e.com", [⟨"abc", "https://e.com", 0⟩]) :=
  (claim_C5 [⟨"abc", "https://e.com", 0⟩] "abc").2 ⟨"abc", "https://e.com", 0⟩
    (by decide) rfl (by decide)

/-- C6: listing returns all stored mappings (as a permutation of the store)
ordered by creation time descending; in particular, creating A then B then C
lists them as C, B, A. -/
theorem claim_C6 (host : String) (store : Store) :
    (((list_urls host store).1.map
        fun e => (e.short_code, e.original_url, e.created_at)).Perm
      (store.map fun m => (m.short_code, m.original_url, m.created_at))) ∧
    ((list_urls host store).1.Pairwise
      fun a b => b.created_at ≤ a.created_at) ∧
    (list_urls "localhost" [⟨"A", "uA", 1⟩, ⟨"B", "uB", 2⟩, ⟨"C", "uC", 3⟩]).1 =
      [⟨"C", "uC", "http://localhost/C", 3⟩,
       ⟨"B", "uB", "http://localhost/B", 2⟩,
       ⟨"A", "uA", "http://localhost/A", 1⟩] := by
  refine ⟨?_, ?_, by decide⟩
  · have hperm := List.perm_insertionSort byCreatedDesc store
    have h1 : ((list_urls host store).1.map
          fun e => (e.short_code, e.original_url, e.created_at)) =
        (store.insertionSort byCreatedDesc).map
          fun m => (m.short_code, m.original_url, m.created_at) := by
      simp [list_urls, List.map_map]
    rw [h1]
    exact hperm.map _
  · have hs : List.Sorted byCreatedDesc (store.insertionSort byCreatedDesc) :=
      List.sorted_insertionSort byCreatedDesc store
    simp only [list_urls]
    exact List.pairwise_map.mpr hs

/-- C7: a successful shorten call appends exactly one row (whose code was
absent beforehand) to the store and changes nothing else. -/
theorem claim_C7 (host : String) (pick : Nat → Fin 62) (fuel now : Nat)
    (data : Option (List (String × JsonVal))) (store : Store)
    (c su ou : String) (store' : Store)
    (h : shorten_url host pick fuel now data store = (.created c su ou, store')) :
    store' = store ++ [⟨c, ou, now⟩] ∧ findCode store c = none :=
  ⟨(shorten_url_created_inv _ _ _ _ _ _ _ _ _ _ h).2.2.1,
   (shorten_url_created_inv _ _ _ _ _ _ _ _ _ _ h).1⟩

/-- C7 witness: a concrete successful shorten appends exactly its one row. -/
theorem claim_C7_witness :
    [⟨"aaaaaa", "x", 9⟩] = ([] : Store) ++ [⟨"aaaaaa", "x", 9⟩] ∧
    findCode [] "aaaaaa" = none :=
  claim_C7 "localhost" pickZero 1 9 (some [("url", .jstr "x")]) [] "aaaaaa"
    "http://localhost/aaaaaa" "x" [⟨"aaaaaa", "x", 9⟩] (by decide)

/-- C8: resolving an absent code returns a 404, leaves the store unchanged,
and a repeated call on the resulting state returns the same answer. -/
theorem claim_C8 (store : Store) (c : String)
    (h : ∀ m ∈ store, m.short_code ≠ c) :
    redirect_to_url c store = (.notFound, store) ∧
    redirect_to_url c (redirect_to_url c store).2 = redirect_to_url c store := by
  have hn : findCode store c = none := (findCode_eq_none_iff store c).mpr h
  have h1 : redirect_to_url c store = (.notFound, store) := by
    simp [redirect_to_url, hn]
  refine ⟨h1, ?_⟩
  rw [h1]
  exact h1

/-- C8 witness: a concrete absent code against a concrete store. -/
theorem claim_C8_witness :
    redirect_to_url "nope" [⟨"abc", "u", 0⟩] = (.notFound, [⟨"abc", "u", 0⟩]) ∧
    redirect_to_url "nope" (redirect_to_url "nope" [⟨"abc", "u", 0⟩]).2 =
      redirect_to_url "nope" [⟨"abc", "u", 0⟩] :=
  claim_C8 [⟨"abc", "u", 0⟩] "nope" (by decide)

/-- C9: every successful create returns a short link equal to the scheme
followed by the inbound request host followed by a slash and the code, and
every listing entry builds its short link from the same request host; the
host is taken from the request, never hardcoded. -/
theorem claim_C9 (host : String) (pick : Nat → Fin 62) (fuel now : Nat)
    (data : Option (List (String × JsonVal))) (store : Store)
    (c su ou : String) (store' : Store) :
    (shorten_url host pick fuel now data store = (.created c su ou, store') →
      su = "http://" ++ host ++ "/" ++ c) ∧
    ∀ e ∈ (list_urls host store).1,
      e.short_url = "http://" ++ host ++ "/" ++ e.short_code := by
  constructor
  · intro h
    exact (shorten_url_created_inv _ _ _ _ _ _ _ _ _ _ h).2.1
  · intro e he
    simp only [list_urls, List.mem_map] at he
    obtain ⟨m, -, rfl⟩ := he
    rfl

/-- C9 witness: a concrete create against a concrete host. -/
theorem claim_C9_witness :
    "http://localhost/aaaaaa" = "http://" ++ "localhost" ++ "/" ++ "aaaaaa" :=
  (claim_C9 "localhost" pickZero 1 0 (some [("url", .jstr "x")]) [] "aaaaaa"
    "http://localhost/aaaaaa" "x" [⟨"aaaaaa", "x", 0⟩]).1 (by decide)

/-- C10: when the request body carries a `url` key whose value is not a JSON
string, the handler hits an uncaught exception at the strip step instead of
returning a validation failure, and the store is left unchanged. -/
theorem claim_C10 (host : String) (pick : Nat → Fin 62) (fuel now : Nat)
    (body : List (String × JsonVal)) (store : Store) (v : JsonVal)
    (hlook : body.lookup "url" = some v) (hnot : ∀ s, v ≠ .jstr s) :
    shorten_url host pick fuel now (some body) store = (.pyError, store) := by
  cases v with
  | jstr s => exact absurd rfl (hnot s)
  | jnum n => simp [shorten_url, hlook]
  | jbool b => simp [shorten_url, hlook]
  | jnull => simp [shorten_url, hlook]
  | jarr => simp [shorten_url, hlook]
  | jobj => simp [shorten_url, hlook]

/-- C10 witness: a JSON number under the `url` key. -/
theorem claim_C10_witness :
    shorten_url "localhost" pickZero 1 0 (some [("url", .jnum 3)])
      [⟨"k", "u", 0⟩] = (.pyError, [⟨"k", "u", 0⟩]) :=
  claim_C10 "localhost" pickZero 1 0 [("url", .jnum 3)] [⟨"k", "u", 0⟩]
    (.jnum 3) rfl (fun _ h => JsonVal.noConfusion h)

end LinkShortener
